import Mathlib

/-!
Verification development for the commercial-data ETL pipeline
(`src/dags/commercial_data_pipeline_dag.py`).

The Python source is shallowly embedded: pure helper functions become Lean
functions, the stateful extraction loop becomes explicit state passing in the
`Except` monad (a raised-and-uncaught Python exception is `.error`, a normal
return is `.ok`), S3 is modelled as a function from object keys to fetch
results, and wall-clock reads (`pendulum.now`) are passed in as an explicit
`now : String` parameter.

Modelling decisions, recorded once here:
* Python scalars reaching the coercion layer are modelled by `Scalar`
  (`None`, `str`, `int`, `float`).  Python floats are modelled by `ℚ`;
  the IEEE-754 binary64 overflow threshold for int-to-float conversion is
  modelled exactly (`floatOverflowBound`), because `float(big_int)` raising
  `OverflowError` is observable in `parse_int`/`parse_float`.  Rounding of a
  convertible value to the nearest double is not modelled; no claim depends
  on the numeric value of a coerced field beyond exactly representable ones.
* `float(str)` is modelled on the plain decimal-literal subset
  (optional sign, digits, optional fractional part).  Exponent, infinity,
  nan, surrounding whitespace and underscore forms are not modelled.
* `int(str)` is modelled as optional sign followed by decimal digits;
  Python additionally strips whitespace and allows digit-group underscores,
  which no claim depends on.
* The `json.dumps`/`json.loads` string codec (Python stdlib) is modelled as
  the identity on JSON trees (`Json`): the ledger save step produces the
  tree, the ledger load step consumes it.  What the repository itself
  contributes -- building the grouped dict and flattening it back into the
  membership set -- is embedded in full.
-/

/-! ## Decimal digits, `str(int)` and `int(str)` -/

/-- Characters of a decimal digit value (`0 ≤ d ≤ 9` maps into `'0'..'9'`). -/
def decChar (d : Nat) : Char := Char.ofNat (48 + d)

/-- Are all characters decimal digits? -/
def allDigits (cs : List Char) : Bool := cs.all (fun c => c.isDigit)

/-- Value of a big-endian decimal digit string. -/
def digitsVal (cs : List Char) : Nat := cs.foldl (fun a c => a * 10 + (c.toNat - 48)) 0

/-- Parse a nonempty all-digit character list into a `Nat`. -/
def digitsToNat (cs : List Char) : Option Nat :=
  if !cs.isEmpty && allDigits cs then some (digitsVal cs) else none

/-- Model of Python `int(str)` on a character list: optional sign, then
decimal digits (see the modelling notes at the top of the file). -/
def intOfChars : List Char → Option Int
  | [] => none
  | c :: cs =>
    if c = '-' then (digitsToNat cs).map (fun n => -(n : Int))
    else if c = '+' then (digitsToNat cs).map (fun n => (n : Int))
    else (digitsToNat (c :: cs)).map (fun n => (n : Int))

/-- Model of Python `int(str)`. -/
def strToInt (s : String) : Option Int := intOfChars s.data

/-- Big-endian decimal digit characters of `n`, with enough fuel.
Fuel keeps the recursion structural so the kernel can evaluate it. -/
def toDecAux : Nat → Nat → List Char
  | 0, _ => []
  | fuel + 1, n => if n < 10 then [decChar n] else toDecAux fuel (n / 10) ++ [decChar (n % 10)]

/-- Model of Python `str(int)` for a nonnegative value. -/
def natStr (n : Nat) : String := String.mk (toDecAux (n + 1) n)

/-- Model of Python `str(int)`. -/
def intStr (i : Int) : String := if i < 0 then "-" ++ natStr i.natAbs else natStr i.natAbs

/-! ## The scalar model and the coercion layer (`parse_int`, `parse_float`) -/

/-- A Python scalar value as it reaches the coercion layer.  `num` is a
Python float (modelled by `ℚ`, see the modelling notes). -/
inductive Scalar
  | null
  | str (s : String)
  | int (n : Int)
  | num (q : ℚ)
deriving DecidableEq

/-- The Python exception classes that the embedded code can raise. -/
inductive PyErr
  | clientError
  | jsonDecodeError
  | keyError
  | valueError
  | typeError
  | indexError
  | overflowError
deriving DecidableEq

instance {ε α : Type} [DecidableEq ε] [DecidableEq α] : DecidableEq (Except ε α) := fun a b =>
  match a, b with
  | .ok x, .ok y =>
    if h : x = y then isTrue (by rw [h]) else isFalse (fun he => h (Except.ok.inj he))
  | .error x, .error y =>
    if h : x = y then isTrue (by rw [h]) else isFalse (fun he => h (Except.error.inj he))
  | .ok _, .error _ => isFalse (fun he => Except.noConfusion he)
  | .error _, .ok _ => isFalse (fun he => Except.noConfusion he)

/-- Smallest magnitude of a Python int whose conversion to an IEEE-754
binary64 float overflows (rounds to infinity under round-to-nearest,
ties-to-even): `2^1024 - 2^970`.  `float(int)` raises `OverflowError` at and
above this bound. -/
def floatOverflowBound : Nat := 2 ^ 1024 - 2 ^ 970

/-- Model of Python `float(str)` on the decimal-literal subset:
digits with an optional single dot, at least one digit overall. -/
def decLitCore (cs : List Char) : Option ℚ :=
  let ip := cs.takeWhile (fun c => c != '.')
  match cs.dropWhile (fun c => c != '.') with
  | [] => if !ip.isEmpty && allDigits ip then some ((digitsVal ip : ℚ)) else none
  | _ :: frac =>
    if allDigits ip && allDigits frac && (!ip.isEmpty || !frac.isEmpty) then
      some ((digitsVal ip : ℚ) + (digitsVal frac : ℚ) / ((10 ^ frac.length : Nat) : ℚ))
    else none

/-- Model of Python `float(str)` (decimal-literal subset, with sign). -/
def strToFloat (s : String) : Option ℚ :=
  match s.data with
  | [] => none
  | c :: cs =>
    if c = '-' then (decLitCore cs).map Neg.neg
    else if c = '+' then decLitCore cs
    else decLitCore (c :: cs)

/-- Model of the Python builtin `float(val)` applied to a scalar:
`TypeError` on `None`, `ValueError` on an unparseable string, and
`OverflowError` on an int too large to convert to a float. -/
def pyFloat : Scalar → Except PyErr ℚ
  | Scalar.null => .error PyErr.typeError
  | Scalar.str s =>
    match strToFloat s with
    | some q => .ok q
    | none => .error PyErr.valueError
  | Scalar.int n =>
    if floatOverflowBound ≤ n.natAbs then .error PyErr.overflowError else .ok (n : ℚ)
  | Scalar.num q => .ok q

/-- Model of Python `int(float)`: truncation toward zero. -/
def ratTrunc (q : ℚ) : Int := if q < 0 then -Rat.floor (-q) else Rat.floor q

/-- `parse_int` (source lines 49-57): `int(float(val)) if val not in [None, ""]
else pd.NA`, catching `ValueError` and `TypeError` (and only those) into the
missing marker `pd.NA` (modelled by `none`). -/
def parse_int (val : Scalar) : Except PyErr (Option Int) :=
  if val = Scalar.null ∨ val = Scalar.str "" then .ok none
  else
    match pyFloat val with
    | .ok q => .ok (some (ratTrunc q))
    | .error PyErr.valueError => .ok none
    | .error PyErr.typeError => .ok none
    | .error e => .error e

/-- `parse_float` (source lines 60-67): `float(val)`, catching `ValueError`
and `TypeError` (and only those) into the missing marker `None`. -/
def parse_float (val : Scalar) : Except PyErr (Option ℚ) :=
  match pyFloat val with
  | .ok q => .ok (some q)
  | .error PyErr.valueError => .ok none
  | .error PyErr.typeError => .ok none
  | .error e => .error e

/-! ## `generate_source_id` (source lines 34-46): MD5 over machine words

MD5 (RFC 1321) as used by `hashlib.md5(raw.encode()).hexdigest()`.
32-bit machine words are modelled as `Nat` reduced mod `2 ^ 32`. -/

/-- The 64 MD5 sine-derived round constants. -/
def md5K : List Nat :=
  [0xd76aa478, 0xe8c7b756, 0x242070db, 0xc1bdceee,
   0xf57c0faf, 0x4787c62a, 0xa8304613, 0xfd469501,
   0x698098d8, 0x8b44f7af, 0xffff5bb1, 0x895cd7be,
   0x6b901122, 0xfd987193, 0xa679438e, 0x49b40821,
   0xf61e2562, 0xc040b340, 0x265e5a51, 0xe9b6c7aa,
   0xd62f105d, 0x02441453, 0xd8a1e681, 0xe7d3fbc8,
   0x21e1cde6, 0xc33707d6, 0xf4d50d87, 0x455a14ed,
   0xa9e3e905, 0xfcefa3f8, 0x676f02d9, 0x8d2a4c8a,
   0xfffa3942, 0x8771f681, 0x6d9d6122, 0xfde5380c,
   0xa4beea44, 0x4bdecfa9, 0xf6bb4b60, 0xbebfbc70,
   0x289b7ec6, 0xeaa127fa, 0xd4ef3085, 0x04881d05,
   0xd9d4d039, 0xe6db99e5, 0x1fa27cf8, 0xc4ac5665,
   0xf4292244, 0x432aff97, 0xab9423a7, 0xfc93a039,
   0x655b59c3, 0x8f0ccc92, 0xffeff47d, 0x85845dd1,
   0x6fa87e4f, 0xfe2ce6e0, 0xa3014314, 0x4e0811a1,
   0xf7537e82, 0xbd3af235, 0x2ad7d2bb, 0xeb86d391]

/-- The 64 MD5 per-round left-rotation amounts. -/
def md5S : List Nat :=
  [7, 12, 17, 22, 7, 12, 17, 22, 7, 12, 17, 22, 7, 12, 17, 22,
   5, 9, 14, 20, 5, 9, 14, 20, 5, 9, 14, 20, 5, 9, 14, 20,
   4, 11, 16, 23, 4, 11, 16, 23, 4, 11, 16, 23, 4, 11, 16, 23,
   6, 10, 15, 21, 6, 10, 15, 21, 6, 10, 15, 21, 6, 10, 15, 21]

/-- 32-bit left rotation of a machine word. -/
def rotl32 (x n : Nat) : Nat :=
  let y := x % 4294967296
  (y * 2 ^ n + y / 2 ^ (32 - n)) % 4294967296

/-- The four 32-bit chaining registers of MD5. -/
structure MD5State where
  a : Nat
  b : Nat
  c : Nat
  d : Nat

/-- One of the 64 MD5 operations, acting on the working registers. -/
def md5Step (M : Nat → Nat) (i : Nat) (r : Nat × Nat × Nat × Nat) : Nat × Nat × Nat × Nat :=
  let (A, B, C, D) := r
  let f :=
    if i < 16 then (B &&& C) ||| ((B ^^^ 0xffffffff) &&& D)
    else if i < 32 then (D &&& B) ||| ((D ^^^ 0xffffffff) &&& C)
    else if i < 48 then B ^^^ C ^^^ D
    else C ^^^ (B ||| (D ^^^ 0xffffffff))
  let g :=
    if i < 16 then i
    else if i < 32 then (5 * i + 1) % 16
    else if i < 48 then (3 * i + 5) % 16
    else (7 * i) % 16
  let F := (f + A + md5K.getD i 0 + M g) % 4294967296
  (D, (B + rotl32 F (md5S.getD i 0)) % 4294967296, B, C)

/-- Process one 64-byte block. -/
def md5Compress (st : MD5State) (block : List Nat) : MD5State :=
  let M := fun j =>
    block.getD (4 * j) 0 + 256 * block.getD (4 * j + 1) 0 +
      65536 * block.getD (4 * j + 2) 0 + 16777216 * block.getD (4 * j + 3) 0
  let r := (List.range 64).foldl (fun r i => md5Step M i r) (st.a, st.b, st.c, st.d)
  ⟨(st.a + r.1) % 4294967296, (st.b + r.2.1) % 4294967296,
   (st.c + r.2.2.1) % 4294967296, (st.d + r.2.2.2) % 4294967296⟩

/-- Process all 64-byte blocks of a padded message.  Fueled so the recursion
is structural (the padded length is a multiple of 64, and one unit of fuel
per byte is more than enough). -/
def md5BlocksAux : Nat → MD5State → List Nat → MD5State
  | 0, st, _ => st
  | fuel + 1, st, l =>
    if l.isEmpty then st else md5BlocksAux fuel (md5Compress st (l.take 64)) (l.drop 64)

/-- Little-endian 8-byte encoding of the 64-bit message bit length. -/
def le64 (n : Nat) : List Nat :=
  [n % 256, n / 256 % 256, n / 65536 % 256, n / 16777216 % 256,
   n / 4294967296 % 256, n / 1099511627776 % 256,
   n / 281474976710656 % 256, n / 72057594037927936 % 256]

/-- MD5 padding: a `0x80` byte, zeros to 56 mod 64, then the bit length. -/
def md5Pad (msg : List Nat) : List Nat :=
  msg ++ [128] ++ List.replicate ((120 - (msg.length + 1) % 64) % 64) 0 ++ le64 (8 * msg.length)

/-- The final MD5 chaining state of a byte message. -/
def md5Final (msg : List Nat) : MD5State :=
  let padded := md5Pad msg
  md5BlocksAux (padded.length + 1) ⟨0x67452301, 0xefcdab89, 0x98badcfe, 0x10325476⟩ padded

/-- Little-endian byte serialization of one 32-bit word. -/
def wordLE (w : Nat) : List Nat :=
  [w % 256, w / 256 % 256, w / 65536 % 256, w / 16777216 % 256]

/-- The 16 digest bytes. -/
def md5Bytes (msg : List Nat) : List Nat :=
  wordLE (md5Final msg).a ++ wordLE (md5Final msg).b ++
    wordLE (md5Final msg).c ++ wordLE (md5Final msg).d

/-- Lower-case hex digit of a value below 16. -/
def hexChar (n : Nat) : Char := if n < 10 then Char.ofNat (48 + n) else Char.ofNat (87 + n)

/-- Two lower-case hex digits of a byte. -/
def byteHex (b : Nat) : List Char := [hexChar (b / 16), hexChar (b % 16)]

/-- Lower-case hex string of a byte list (Python `.hexdigest()`). -/
def hexStr (bs : List Nat) : String := String.mk (bs.flatMap byteHex)

/-- UTF-8 encoding of one character (Python `str.encode()`). -/
def utf8Char (c : Char) : List Nat :=
  let n := c.toNat
  if n < 128 then [n]
  else if n < 2048 then [192 + n / 64, 128 + n % 64]
  else if n < 65536 then [224 + n / 4096, 128 + n / 64 % 64, 128 + n % 64]
  else [240 + n / 262144, 128 + n / 4096 % 64, 128 + n / 64 % 64, 128 + n % 64]

/-- UTF-8 encoding of a string. -/
def utf8Bytes (s : String) : List Nat := s.data.flatMap utf8Char

/-- `generate_source_id` (source lines 34-46): the 32-character MD5 hex
digest of `f"{area_code}_{observed_at}"` encoded as UTF-8. -/
def generate_source_id (area_code observed_at : String) : String :=
  hexStr (md5Bytes (utf8Bytes (area_code ++ "_" ++ observed_at)))

/-- A character of the lower-case hexadecimal alphabet `0-9a-f`. -/
def isLowerHex (c : Char) : Prop :=
  (48 ≤ c.toNat ∧ c.toNat ≤ 57) ∨ (97 ≤ c.toNat ∧ c.toNat ≤ 102)

instance (c : Char) : Decidable (isLowerHex c) := by unfold isLowerHex; infer_instance

/-! ## Civil time: `strftime` formatting and the observation-timestamp parse

A KST civil instant is modelled as a minute count since 1970-01-01 00:00
(the timezone conversion from the UTC `logical_date` is pendulum's job and
happens before the value enters the embedded code). -/

/-- Zero-padded two-digit decimal rendering (`%M`, `%H`, `%m`, `%d`). -/
def pad2 (n : Nat) : String := if n < 10 then "0" ++ natStr n else natStr n

/-- Zero-padded four-digit decimal rendering (`%Y`). -/
def pad4 (n : Nat) : String :=
  if n < 10 then "000" ++ natStr n
  else if n < 100 then "00" ++ natStr n
  else if n < 1000 then "0" ++ natStr n
  else natStr n

/-- Gregorian leap year. -/
def isLeap (y : Nat) : Bool := (y % 4 == 0 && y % 100 != 0) || y % 400 == 0

/-- Days in a Gregorian month. -/
def daysInMonth (y m : Nat) : Nat :=
  if m = 2 then (if isLeap y then 29 else 28)
  else if m = 4 ∨ m = 6 ∨ m = 9 ∨ m = 11 then 30
  else 31

/-- Gregorian civil date (year, month, day) of a day count since
1970-01-01, by the standard era-based conversion algorithm. -/
def civilOfDays (z0 : Nat) : Nat × Nat × Nat :=
  let z := z0 + 719468
  let era := z / 146097
  let doe := z % 146097
  let yoe := (doe - doe / 1460 + doe / 36524 - doe / 146096) / 365
  let doy := doe - (365 * yoe + yoe / 4 - yoe / 100)
  let mp := (5 * doy + 2) / 153
  let d := doy - (153 * mp + 2) / 5 + 1
  let m := if mp < 10 then mp + 3 else mp - 9
  (yoe + era * 400 + (if m ≤ 2 then 1 else 0), m, d)

/-- `strftime("%Y%m%d")` of a minute instant. -/
def dateStr (t : Nat) : String :=
  pad4 (civilOfDays (t / 1440)).1 ++ pad2 (civilOfDays (t / 1440)).2.1 ++
    pad2 (civilOfDays (t / 1440)).2.2

/-- `strftime("%H%M")` of a minute instant. -/
def timeStr (t : Nat) : String := pad2 (t % 1440 / 60) ++ pad2 (t % 60)

/-- Model of `pendulum.from_format(raw, "YYYYMMDD HHmm", tz="Asia/Seoul")`
followed by `.format("YYYY-MM-DD HH:mm:ss")` (source lines 242-245): strict
parse of exactly `YYYYMMDD HHmm` with calendar validation, re-rendered at
second precision.  Parse and output use the same fixed civil timezone, so no
instant shifting occurs.  A `None` input (absent `CMRCL_TIME`) raises inside
`pendulum.from_format` and is caught by the same handler, hence `none`. -/
def parseObservedAt : Option String → Option String
  | none => none
  | some s =>
    match s.data with
    | [y1, y2, y3, y4, m1, m2, d1, d2, sp, h1, h2, n1, n2] =>
      if sp = ' ' ∧ allDigits [y1, y2, y3, y4, m1, m2, d1, d2, h1, h2, n1, n2] = true then
        let y := digitsVal [y1, y2, y3, y4]
        let mo := digitsVal [m1, m2]
        let da := digitsVal [d1, d2]
        let hh := digitsVal [h1, h2]
        let mi := digitsVal [n1, n2]
        if 1 ≤ y ∧ 1 ≤ mo ∧ mo ≤ 12 ∧ 1 ≤ da ∧ da ≤ daysInMonth y mo ∧ hh < 24 ∧ mi < 60 then
          some (pad4 y ++ "-" ++ pad2 mo ++ "-" ++ pad2 da ++ " "
            ++ pad2 hh ++ ":" ++ pad2 mi ++ ":00")
        else none
      else none
    | _ => none

/-! ## File Discovery (source lines 160-190)

Python string splitting is modelled on character lists with structural
(kernel-evaluable) recursion, since the claims quantify over and evaluate
these operations concretely. -/

/-- Python `str.split(sep)` for a one-character separator: accumulator
`acc` holds the current segment reversed. -/
def splitOnCharAux (sep : Char) : List Char → List Char → List (List Char)
  | [], acc => [acc.reverse]
  | c :: cs, acc =>
    if c = sep then acc.reverse :: splitOnCharAux sep cs []
    else splitOnCharAux sep cs (c :: acc)

/-- Python `str.split(sep)` for a one-character separator. -/
def splitOnChar (sep : Char) (cs : List Char) : List (List Char) := splitOnCharAux sep cs []

/-- Python `str.replace(pat, "")` for a nonempty pattern: removes every
leftmost non-overlapping occurrence.  Fueled with one unit per character. -/
def removeAllAux (pat : List Char) : Nat → List Char → List Char
  | 0, _ => []
  | _ + 1, [] => []
  | fuel + 1, c :: cs =>
    if pat.isPrefixOf (c :: cs) then removeAllAux pat fuel ((c :: cs).drop pat.length)
    else c :: removeAllAux pat fuel cs

/-- Python `str.replace(pat, "")` for a nonempty pattern. -/
def removeAll (pat cs : List Char) : List Char := removeAllAux pat cs.length cs

/-- A candidate snapshot reference, as appended to `files_to_process`. -/
structure FileRef where
  file_time : Nat
  area_id : Int
  file_name : String
deriving DecidableEq

/-- The filename splitting of source lines 181-182: take the last
`/`-segment of the key, strip every occurrence of `".json"`, split on `_`. -/
def listedParts (key : String) : List (List Char) :=
  splitOnChar '_' (removeAll ".json".data ((splitOnChar '/' key.data).getLastD []))

/-- Parse one listed object key (source lines 181-190).  `parts[1]` raises
`IndexError` when there is no second part; `int(parts[1])` raises
`ValueError` when it is not an integer literal; both propagate and abort the
task.  The `file_name` is rebuilt as `f-string of s3_prefix_time_name,
int(area_id), ".json"` from the parsed integer, not copied from the key. -/
def parseListedKey (timeName : String) (t : Nat) (key : String) : Except PyErr FileRef :=
  match (listedParts key)[1]? with
  | none => .error PyErr.indexError
  | some p1 =>
    match intOfChars p1 with
    | none => .error PyErr.valueError
    | some a => .ok ⟨t, a, timeName ++ "_" ++ intStr a ++ ".json"⟩

/-- The per-minute listing path of source line 169: the raw base, the
date directory, and the `HHMM_` stem. -/
def bucketPath (base : String) (t : Nat) : String :=
  base ++ "/" ++ dateStr t ++ "/" ++ timeStr t ++ "_"

/-- Parse the listed keys of one bucket in listing order, aborting on the
first failure (the `for obj in response` loop of source lines 176-190). -/
def parseKeys (timeName : String) (t : Nat) : List String → Except PyErr (List FileRef)
  | [] => .ok []
  | k :: ks =>
    match parseListedKey timeName t k with
    | .error e => .error e
    | .ok r =>
      match parseKeys timeName t ks with
      | .error e => .error e
      | .ok rs => .ok (r :: rs)

/-- Discovery over an explicit list of minute buckets: list the keys under
each bucket's path, parse them in listing order, and concatenate in bucket
order (source lines 163-190). -/
def discoverBuckets (base : String) (lk : String → List String) :
    List Nat → Except PyErr (List FileRef)
  | [] => .ok []
  | t :: ts =>
    match parseKeys (timeStr t) t (lk (bucketPath base t)) with
    | .error e => .error e
    | .ok refs =>
      match discoverBuckets base lk ts with
      | .error e => .error e
      | .ok rest => .ok (refs ++ rest)

/-- The five queried minute buckets (source lines 163-164):
`process_start_time_kst.subtract(minutes=(5 - i))` for `i = 0..4`. -/
def discoverMinutes (kst : Nat) : List Nat := (List.range 5).map (fun i => kst - (5 - i))

/-- File Discovery: the `files_to_process` computation of source
lines 160-190, given the KST-normalized reference instant. -/
def discover (base : String) (lk : String → List String) (kst : Nat) :
    Except PyErr (List FileRef) :=
  discoverBuckets base lk (discoverMinutes kst)

/-- The exact condition under which the code aborts on a listed key: no
second underscore-delimited part after stripping `".json"`, or a second part
that is not an integer literal. -/
def keyMalformed (key : String) : Bool :=
  match (listedParts key)[1]? with
  | none => true
  | some p1 => (intOfChars p1).isNone

/-- Modelled from the spec: a trailing filename segment matching "the
expected two-part underscore-delimited naming convention"
`HHmm_area_id.json` with `area_id` an integer.  This is the spec-side notion
C5 quantifies over, compared against the code's accept/abort behaviour. -/
def specTwoPartConvention (timeName fname : String) : Bool :=
  ".json".data.isSuffixOf fname.data &&
    match splitOnChar '_' (fname.data.take (fname.data.length - 5)) with
    | [a, b] => a == timeName.data && (intOfChars b).isSome
    | _ => false

/-! ## C10: the rebuilt file name versus the listed key -/

/-! ## The Record Extractor (source lines 192-377)

The nested category objects (`CMRCL_RSB`) and raw fields follow the JSON
keys consumed by the source.  A field read with `.get(key)` is a `Scalar`
(`Scalar.null` for an absent or null value); a field read with
`.get(key, "")` and passed through `str()` is modelled `Option String`
(the source data carries strings there; `None` maps to the default). -/

/-- One entry of the raw `CMRCL_RSB` category array. -/
structure RsbRaw where
  rsb_lrg_ctgr : Option String
  rsb_mid_ctgr : Option String
  rsb_payment_lvl : Option String
  rsb_sh_payment_cnt : Scalar
  rsb_sh_payment_amt_min : Scalar
  rsb_sh_payment_amt_max : Scalar
  rsb_mct_cnt : Scalar
  rsb_mct_time : Option String
deriving DecidableEq

/-- The nested `LIVE_CMRCL_STTS` object.  An absent `CMRCL_RSB` and an
empty array behave identically (`.get("CMRCL_RSB", [])`), so both are the
empty list. -/
structure LiveStatus where
  cmrcl_time : Option String
  area_cmrcl_lvl : Option String
  area_sh_payment_cnt : Scalar
  area_sh_payment_amt_min : Scalar
  area_sh_payment_amt_max : Scalar
  cmrcl_male_rate : Scalar
  cmrcl_female_rate : Scalar
  cmrcl_10_rate : Scalar
  cmrcl_20_rate : Scalar
  cmrcl_30_rate : Scalar
  cmrcl_40_rate : Scalar
  cmrcl_50_rate : Scalar
  cmrcl_60_rate : Scalar
  cmrcl_personal_rate : Scalar
  cmrcl_corporation_rate : Scalar
  cmrcl_rsb : List RsbRaw
deriving DecidableEq

/-- A parsed raw snapshot document.  `live_cmrcl_stts = none` models a JSON
body without the `LIVE_CMRCL_STTS` key: `raw_data["LIVE_CMRCL_STTS"]`
raises `KeyError`, which is not caught, hence fatal. -/
structure RawDoc where
  area_cd : Option String
  area_nm : Option String
  live_cmrcl_stts : Option LiveStatus
deriving DecidableEq

/-- Outcome of `s3_client.get_object` followed by `json.loads`:
`notFound` is the caught `NoSuchKey` client error (skip), `errorOther` any
other client error (re-raised), `badJson` an uncaught `json.loads` failure
(fatal), `found` a parsed document. -/
inductive FetchResult
  | notFound
  | errorOther
  | badJson
  | found (doc : RawDoc)

/-- A typed row of `source_commercial_data` (source lines 260-312). -/
structure AreaRow where
  source_id : String
  area_code : String
  area_name : String
  congestion_level : String
  total_payment_count : Option Int
  payment_amount_min : Option Int
  payment_amount_max : Option Int
  male_ratio : Option ℚ
  female_ratio : Option ℚ
  age_10s_ratio : Option ℚ
  age_20s_ratio : Option ℚ
  age_30s_ratio : Option ℚ
  age_40s_ratio : Option ℚ
  age_50s_ratio : Option ℚ
  age_60s_ratio : Option ℚ
  individual_consumer_ratio : Option ℚ
  corporate_consumer_ratio : Option ℚ
  observed_at : String
  created_at : String
deriving DecidableEq

/-- A typed row of `source_commercial_rsb_data` (source lines 317-349). -/
structure RsbRow where
  source_id : String
  category_large : String
  category_medium : String
  category_congestion_level : String
  category_payment_count : Option Int
  category_payment_min : Option Int
  category_payment_max : Option Int
  merchant_count : Option Int
  merchant_basis_month : String
  observed_at : String
  created_at : String
deriving DecidableEq

/-- One history entry of the processed-history ledger. -/
structure HistEntry where
  observed_at : String
  processed_at : String
deriving DecidableEq

/-- The grouped ledger dict `processed_observed_at_dict`:
`str(area_id)` keys to entry lists, in insertion order. -/
abbrev Ledger := List (String × List HistEntry)

/-- The mutable state of one extraction run: the membership set
`processed_observed_at_set` (insertion list, membership is what matters),
the grouped dict, and the two output collections. -/
structure ExtState where
  processedSet : List (Int × String)
  processedDict : Ledger
  commData : List AreaRow
  rsbData : List RsbRow
deriving DecidableEq

/-- Source lines 355-362: append a history entry under `str(area_id)`,
creating the key at the end on first use (Python dicts preserve insertion
order). -/
def dictRecord (d : Ledger) (k : String) (e : HistEntry) : Ledger :=
  if d.any (fun kv => kv.1 == k) then
    d.map (fun kv => if kv.1 == k then (kv.1, kv.2 ++ [e]) else kv)
  else d ++ [(k, [e])]

/-- Build one `AreaRow` (the dict literal of source lines 260-312); a raised
coercion error propagates. -/
def buildAreaRow (doc : RawDoc) (live : LiveStatus) (sid observedAt now : String) :
    Except PyErr AreaRow := do
  let tot ← parse_int live.area_sh_payment_cnt
  let pmin ← parse_int live.area_sh_payment_amt_min
  let pmax ← parse_int live.area_sh_payment_amt_max
  let v1 ← parse_float live.cmrcl_male_rate
  let v2 ← parse_float live.cmrcl_female_rate
  let v3 ← parse_float live.cmrcl_10_rate
  let v4 ← parse_float live.cmrcl_20_rate
  let v5 ← parse_float live.cmrcl_30_rate
  let v6 ← parse_float live.cmrcl_40_rate
  let v7 ← parse_float live.cmrcl_50_rate
  let v8 ← parse_float live.cmrcl_60_rate
  let v9 ← parse_float live.cmrcl_personal_rate
  let v10 ← parse_float live.cmrcl_corporation_rate
  pure { source_id := sid
         area_code := doc.area_cd.getD ""
         area_name := doc.area_nm.getD ""
         congestion_level := live.area_cmrcl_lvl.getD ""
         total_payment_count := tot
         payment_amount_min := pmin
         payment_amount_max := pmax
         male_ratio := v1
         female_ratio := v2
         age_10s_ratio := v3
         age_20s_ratio := v4
         age_30s_ratio := v5
         age_40s_ratio := v6
         age_50s_ratio := v7
         age_60s_ratio := v8
         individual_consumer_ratio := v9
         corporate_consumer_ratio := v10
         observed_at := observedAt
         created_at := now }

/-- Build one `RsbRow` (the dict literal of source lines 317-349). -/
def buildRsbRow (sid observedAt now : String) (v : RsbRaw) : Except PyErr RsbRow := do
  let cnt ← parse_int v.rsb_sh_payment_cnt
  let cmin ← parse_int v.rsb_sh_payment_amt_min
  let cmax ← parse_int v.rsb_sh_payment_amt_max
  let mct ← parse_int v.rsb_mct_cnt
  pure { source_id := sid
         category_large := v.rsb_lrg_ctgr.getD ""
         category_medium := v.rsb_mid_ctgr.getD ""
         category_congestion_level := v.rsb_payment_lvl.getD ""
         category_payment_count := cnt
         category_payment_min := cmin
         category_payment_max := cmax
         merchant_count := mct
         merchant_basis_month := v.rsb_mct_time.getD ""
         observed_at := observedAt
         created_at := now }

/-- The `for value in ...CMRCL_RSB` loop of source lines 314-349, in order;
a raised coercion error propagates (rows appended before the raise are
unobservable because the task aborts). -/
def buildRsbRows (sid observedAt now : String) : List RsbRaw → Except PyErr (List RsbRow)
  | [] => .ok []
  | v :: vs =>
    match buildRsbRow sid observedAt now v with
    | .error e => .error e
    | .ok r =>
      match buildRsbRows sid observedAt now vs with
      | .error e => .error e
      | .ok rs => .ok (r :: rs)

/-- Source line 233: the fetch key rebuilt from the bucket minute's date
directory and the stored `file_name`. -/
def fileKey (base : String) (f : FileRef) : String :=
  base ++ "/" ++ dateStr f.file_time ++ "/" ++ f.file_name

/-- One iteration of the extraction loop (source lines 228-371): fetch,
parse, timestamp-normalize, dedup-check against the membership set, build
and append the two row kinds, record into set and dict. -/
def processFile (base : String) (store : String → FetchResult) (now : String)
    (st : ExtState) (f : FileRef) : Except PyErr ExtState :=
  match store (fileKey base f) with
  | .notFound => .ok st
  | .errorOther => .error PyErr.clientError
  | .badJson => .error PyErr.jsonDecodeError
  | .found doc =>
    match doc.live_cmrcl_stts with
    | none => .error PyErr.keyError
    | some live =>
      match parseObservedAt live.cmrcl_time with
      | none => .ok st
      | some observedAt =>
        if (f.area_id, observedAt) ∈ st.processedSet then .ok st
        else
          match buildAreaRow doc live
              (generate_source_id (doc.area_cd.getD "") observedAt) observedAt now with
          | .error e => .error e
          | .ok row =>
            match buildRsbRows
                (generate_source_id (doc.area_cd.getD "") observedAt) observedAt now
                live.cmrcl_rsb with
            | .error e => .error e
            | .ok rsbRows =>
              .ok { processedSet := (f.area_id, observedAt) :: st.processedSet
                    processedDict :=
                      dictRecord st.processedDict (intStr f.area_id) ⟨observedAt, now⟩
                    commData := st.commData ++ [row]
                    rsbData := st.rsbData ++ rsbRows }

/-- The `for file_info in files_to_process` loop (source lines 228-371). -/
def extractLoop (base : String) (store : String → FetchResult) (now : String) :
    ExtState → List FileRef → Except PyErr ExtState
  | st, [] => .ok st
  | st, f :: fs =>
    match processFile base store now st f with
    | .error e => .error e
    | .ok st1 => extractLoop base store now st1 fs

/-- State-independent classification of what the extraction loop does with
one file reference: skip (missing object or unparseable timestamp), reach
the dedup check with a key, or abort. -/
inductive FileClass
  | skipped
  | keyed (p : Int × String)
  | fatal
deriving DecidableEq

/-- Classify a file reference from the store contents alone. -/
def classify (base : String) (store : String → FetchResult) (f : FileRef) : FileClass :=
  match store (fileKey base f) with
  | .notFound => .skipped
  | .errorOther => .fatal
  | .badJson => .fatal
  | .found doc =>
    match doc.live_cmrcl_stts with
    | none => .fatal
    | some live =>
      match parseObservedAt live.cmrcl_time with
      | none => .skipped
      | some t => .keyed (f.area_id, t)

/-- The `(area_id, observed_at)` dedup key the loop would check for a file,
when it reaches the check. -/
def dedupKey (base : String) (store : String → FetchResult) (f : FileRef) :
    Option (Int × String) :=
  match classify base store f with
  | .keyed p => some p
  | _ => none

/-! ## The History Ledger: save, load, round trip (C7) -/

/-- A JSON value tree (the shapes the ledger document can hold). -/
inductive Json
  | str (s : String)
  | arr (xs : List Json)
  | obj (kvs : List (String × Json))

/-- One ledger entry as serialized by `json.dumps`. -/
def entryToJson (e : HistEntry) : Json :=
  Json.obj [("observed_at", .str e.observed_at), ("processed_at", .str e.processed_at)]

/-- The JSON tree produced by `upload_processed_history_to_s3` (source
lines 86-95): `json.dumps(processed_history_data)` over the grouped dict.
The string codec is the stdlib's and is modelled as the identity on trees
(see the modelling notes at the top of the file). -/
def ledgerToJson (d : Ledger) : Json :=
  Json.obj (d.map (fun kv => (kv.1, Json.arr (kv.2.map entryToJson))))

/-- Python dict lookup on a JSON object. -/
def jsonLookup : List (String × Json) → String → Option Json
  | [], _ => none
  | (k1, v) :: rest, k => if k1 == k then some v else jsonLookup rest k

/-- `value["observed_at"]` on one deserialized entry (source line 205).
A missing key raises `KeyError`; a non-object or non-string shape is
modelled as `TypeError` (the serializer only ever emits string-valued
objects there). -/
def entryObservedAt : Json → Except PyErr String
  | .obj kvs =>
    match jsonLookup kvs "observed_at" with
    | some (.str s) => .ok s
    | some _ => .error PyErr.typeError
    | none => .error PyErr.keyError
  | _ => .error PyErr.typeError

/-- The inner `for value in values` loop of source lines 204-206. -/
def jsonPairsOfEntries (a : Int) : List Json → Except PyErr (List (Int × String))
  | [] => .ok []
  | j :: rest =>
    match entryObservedAt j with
    | .error e => .error e
    | .ok t =>
      match jsonPairsOfEntries a rest with
      | .error e => .error e
      | .ok ps => .ok ((a, t) :: ps)

/-- The outer `for area_id_str, values in ...items()` loop of source
lines 202-206: `int(area_id_str)` raises `ValueError` on a non-integer
key. -/
def jsonPairsOfObj : List (String × Json) → Except PyErr (List (Int × String))
  | [] => .ok []
  | (k, v) :: rest =>
    match strToInt k with
    | none => .error PyErr.valueError
    | some a =>
      match v with
      | .arr xs =>
        match jsonPairsOfEntries a xs with
        | .error e => .error e
        | .ok ps =>
          match jsonPairsOfObj rest with
          | .error e => .error e
          | .ok ps2 => .ok (ps ++ ps2)
      | _ => .error PyErr.typeError

/-- Ledger load (source lines 197-206): flatten a deserialized ledger
document into the membership pairs, in iteration order. -/
def jsonLoadPairs : Json → Except PyErr (List (Int × String))
  | .obj kvs => jsonPairsOfObj kvs
  | _ => .error PyErr.typeError

/-- The same flattening loop applied to the typed in-memory grouped dict:
this is what the membership pairs of a given ledger state are. -/
def loadPairs : Ledger → Except PyErr (List (Int × String))
  | [] => .ok []
  | (k, es) :: rest =>
    match strToInt k with
    | none => .error PyErr.valueError
    | some a =>
      match loadPairs rest with
      | .error e => .error e
      | .ok ps => .ok (es.map (fun e => (a, e.observed_at)) ++ ps)

/-! ## Idempotence of extraction (C2) -/

/-- The membership pairs of a grouped dict, ignoring unparseable keys
(the runs below only ever meet parseable `str(area_id)` keys). -/
def flattenPairs : Ledger → List (Int × String)
  | [] => []
  | (k, es) :: rest =>
    (match strToInt k with
     | some a => es.map (fun e => (a, e.observed_at))
     | none => []) ++ flattenPairs rest

/-- Every key of the grouped dict parses as an integer. -/
def KeysOK (d : Ledger) : Prop := ∀ kv ∈ d, (strToInt kv.1).isSome = true

/-- The run-time membership set and the grouped dict hold the same pairs. -/
def MemInv (st : ExtState) : Prop :=
  ∀ x, x ∈ st.processedSet ↔ x ∈ flattenPairs st.processedDict

/-! ## Theorems -/

theorem decChar_toNat {d : Nat} (h : d < 10) : (decChar d).toNat = 48 + d := by
  interval_cases d <;> decide

theorem decChar_isDigit {d : Nat} (h : d < 10) : (decChar d).isDigit = true := by
  interval_cases d <;> decide

theorem digitsVal_append (cs : List Char) (c : Char) :
    digitsVal (cs ++ [c]) = digitsVal cs * 10 + (c.toNat - 48) := by
  simp [digitsVal, List.foldl_append]

theorem toDecAux_spec : ∀ fuel n, n < fuel →
    toDecAux fuel n ≠ [] ∧ allDigits (toDecAux fuel n) = true ∧
      digitsVal (toDecAux fuel n) = n := by
  intro fuel
  induction fuel with
  | zero => intro n h; omega
  | succ fuel ih =>
    intro n h
    by_cases h10 : n < 10
    · refine ⟨by simp [toDecAux, h10], ?_, ?_⟩
      · simp [toDecAux, h10, allDigits, decChar_isDigit h10]
      · simp [toDecAux, h10, digitsVal, decChar_toNat h10]
    · have hd : n / 10 < fuel := by
        have := Nat.div_lt_self (by omega : 0 < n) (by omega : 1 < 10)
        omega
      obtain ⟨hne, hdig, hval⟩ := ih (n / 10) hd
      have hm : n % 10 < 10 := Nat.mod_lt _ (by omega)
      refine ⟨by simp [toDecAux, h10], ?_, ?_⟩
      · simp only [toDecAux, if_neg h10, allDigits] at hdig ⊢
        simp [List.all_append, hdig, decChar_isDigit hm]
      · simp only [toDecAux, if_neg h10]
        rw [digitsVal_append, hval, decChar_toNat hm]
        omega

theorem digitsToNat_toDecAux (n : Nat) : digitsToNat (toDecAux (n + 1) n) = some n := by
  obtain ⟨hne, hdig, hval⟩ := toDecAux_spec (n + 1) n (by omega)
  have : (toDecAux (n + 1) n).isEmpty = false := by
    cases h : toDecAux (n + 1) n with
    | nil => exact absurd h hne
    | cons c cs => simp [List.isEmpty]
  simp [digitsToNat, this, hdig, hval]

theorem isDigit_ne_dash {c : Char} (h : c.isDigit = true) : c ≠ '-' := by
  intro he; subst he; exact absurd h (by decide)

theorem isDigit_ne_plus {c : Char} (h : c.isDigit = true) : c ≠ '+' := by
  intro he; subst he; exact absurd h (by decide)

theorem strToInt_natStr (n : Nat) : strToInt (natStr n) = some (n : Int) := by
  obtain ⟨hne, hdig, hval⟩ := toDecAux_spec (n + 1) n (by omega)
  have hdata : (natStr n).data = toDecAux (n + 1) n := rfl
  rw [strToInt, hdata]
  cases h : toDecAux (n + 1) n with
  | nil => exact absurd h hne
  | cons c cs =>
    have hcd : c.isDigit = true := by
      rw [h] at hdig; simp [allDigits] at hdig; exact hdig.1
    have h1 := digitsToNat_toDecAux n
    rw [h] at h1
    simp [intOfChars, isDigit_ne_dash hcd, isDigit_ne_plus hcd, h1]

theorem strToInt_intStr (i : Int) : strToInt (intStr i) = some i := by
  by_cases h : i < 0
  · have h2 : intStr i = "-" ++ natStr i.natAbs := by simp [intStr, h]
    rw [strToInt, h2, String.data_append]
    have h3 : ("-" : String).data = ['-'] := rfl
    have hnd : (natStr i.natAbs).data = toDecAux (i.natAbs + 1) i.natAbs := rfl
    rw [h3, hnd, List.singleton_append]
    simp [intOfChars, digitsToNat_toDecAux, Int.ofNat_natAbs_of_nonpos (le_of_lt h)]
  · have h2 : intStr i = natStr i.natAbs := by simp [intStr, h]
    rw [h2, strToInt_natStr]
    congr 1
    omega

/-- C9: the coercion functions satisfy the reference equations. -/
theorem c9_coercion_reference_equations :
    parse_int Scalar.null = .ok none ∧
    parse_int (Scalar.str "") = .ok none ∧
    parse_int (Scalar.str "42.0") = .ok (some 42) ∧
    parse_int (Scalar.str "abc") = .ok none ∧
    parse_float Scalar.null = .ok none ∧
    parse_float (Scalar.str "3.14") = .ok (some (157 / 50 : ℚ)) ∧
    parse_float (Scalar.str "abc") = .ok none := by
  have h42 : strToFloat "42.0" = some 42 := by
    have hd : "42.0".data = ['4', '2', '.', '0'] := rfl
    simp [strToFloat, hd, decLitCore, allDigits, digitsVal]
  have h314 : strToFloat "3.14" = some (157 / 50 : ℚ) := by
    have hd : "3.14".data = ['3', '.', '1', '4'] := rfl
    simp [strToFloat, hd, decLitCore, allDigits, digitsVal]
    norm_num
  refine ⟨by decide, by decide, ?_, by decide, by decide, ?_, by decide⟩
  · have : ratTrunc 42 = 42 := by norm_num [ratTrunc, Rat.floor_def']
    simp [parse_int, pyFloat, h42, this]
  · simp [parse_float, pyFloat, h314]

/-- C3: `parse_int` and `parse_float` are not exception-free over every
scalar input.  `float(10 ** 400)` raises `OverflowError`, which is not in the
`except (ValueError, TypeError)` clause of either function, so it propagates
to the caller instead of yielding the missing marker that both docstrings
and the spec promise. -/
theorem c3_overflow_escapes_coercion :
    parse_int (Scalar.int (10 ^ 400)) = .error PyErr.overflowError ∧
    parse_float (Scalar.int (10 ^ 400)) = .error PyErr.overflowError := by
  have h : floatOverflowBound ≤ ((10 : Int) ^ 400).natAbs := by
    rw [Int.natAbs_pow]
    have h4 : ((10 : Int).natAbs) ^ 400 = 10 ^ 400 := by norm_num
    rw [h4]
    calc floatOverflowBound ≤ 2 ^ 1024 := Nat.sub_le _ _
      _ ≤ 2 ^ 1200 := Nat.pow_le_pow_right (by norm_num) (by norm_num)
      _ = 8 ^ 400 := by rw [show (8 : Nat) = 2 ^ 3 by norm_num, ← pow_mul]
      _ ≤ 10 ^ 400 := Nat.pow_le_pow_left (by norm_num) _
  constructor
  · simp [parse_int, pyFloat, h]
  · simp [parse_float, pyFloat, h]

theorem md5Bytes_length (msg : List Nat) : (md5Bytes msg).length = 16 := by
  simp [md5Bytes, wordLE]

theorem wordLE_lt (w : Nat) : ∀ b ∈ wordLE w, b < 256 := by
  intro b hb
  simp [wordLE] at hb
  rcases hb with h | h | h | h <;> subst h <;> exact Nat.mod_lt _ (by norm_num)

theorem md5Bytes_lt (msg : List Nat) : ∀ b ∈ md5Bytes msg, b < 256 := by
  intro b hb
  simp only [md5Bytes, List.mem_append] at hb
  rcases hb with ((h | h) | h) | h <;> exact wordLE_lt _ b h

theorem flatMap_byteHex_length (bs : List Nat) : (bs.flatMap byteHex).length = 2 * bs.length := by
  induction bs with
  | nil => simp
  | cons b bs ih => simp [byteHex, ih]; omega

theorem hexChar_isLowerHex {n : Nat} (h : n < 16) : isLowerHex (hexChar n) := by
  interval_cases n <;> decide

/-- C8: `generate_source_id` always returns a 32-character lower-case
hexadecimal string, and equal `(area_code, observed_at)` inputs yield the
identical source id. -/
theorem c8_source_id_fixed_length_hex_deterministic
    (a1 o1 a2 o2 : String) (ha : a1 = a2) (ho : o1 = o2) :
    (generate_source_id a1 o1).length = 32 ∧
    (∀ c ∈ (generate_source_id a1 o1).data, isLowerHex c) ∧
    generate_source_id a1 o1 = generate_source_id a2 o2 := by
  refine ⟨?_, ?_, by rw [ha, ho]⟩
  · show (hexStr (md5Bytes (utf8Bytes (a1 ++ "_" ++ o1)))).length = 32
    have h1 : ∀ l : List Char, (String.mk l).length = l.length := fun l => rfl
    rw [hexStr, h1, flatMap_byteHex_length, md5Bytes_length]
  · intro c hc
    have hdata : (generate_source_id a1 o1).data
        = (md5Bytes (utf8Bytes (a1 ++ "_" ++ o1))).flatMap byteHex := rfl
    rw [hdata] at hc
    rw [List.mem_flatMap] at hc
    obtain ⟨b, hb, hcb⟩ := hc
    have hblt : b < 256 := md5Bytes_lt _ b hb
    simp [byteHex] at hcb
    rcases hcb with h | h <;> subst h
    · exact hexChar_isLowerHex (by omega : b / 16 < 16)
    · exact hexChar_isLowerHex (Nat.mod_lt _ (by norm_num))

theorem c8_witness :
    (generate_source_id "POI001" "2025-07-08 09:00:00").length = 32 ∧
    (∀ c ∈ (generate_source_id "POI001" "2025-07-08 09:00:00").data, isLowerHex c) ∧
    generate_source_id "POI001" "2025-07-08 09:00:00"
      = generate_source_id "POI001" "2025-07-08 09:00:00" :=
  c8_source_id_fixed_length_hex_deterministic "POI001" "2025-07-08 09:00:00"
    "POI001" "2025-07-08 09:00:00" rfl rfl

theorem parseListedKey_classify (tn : String) (t : Nat) (k : String) :
    (keyMalformed k = true ∧ ∃ e, parseListedKey tn t k = .error e) ∨
    (keyMalformed k = false ∧ ∃ r, parseListedKey tn t k = .ok r) := by
  cases h : (listedParts k)[1]? with
  | none =>
    exact Or.inl ⟨by simp [keyMalformed, h], PyErr.indexError, by simp [parseListedKey, h]⟩
  | some p1 =>
    cases h2 : intOfChars p1 with
    | none =>
      exact Or.inl ⟨by simp [keyMalformed, h, h2], PyErr.valueError,
        by simp [parseListedKey, h, h2]⟩
    | some a =>
      exact Or.inr ⟨by simp [keyMalformed, h, h2],
        ⟨t, a, tn ++ "_" ++ intStr a ++ ".json"⟩, by simp [parseListedKey, h, h2]⟩

theorem parseKeys_ok_iff (tn : String) (t : Nat) (keys : List String) :
    (∃ rs, parseKeys tn t keys = .ok rs) ↔ ∀ k ∈ keys, keyMalformed k = false := by
  induction keys with
  | nil => simp [parseKeys]
  | cons k keys ih =>
    constructor
    · rintro ⟨rs, hrs⟩ k2 hk2
      rw [parseKeys] at hrs
      rcases parseListedKey_classify tn t k with ⟨hm, e, he⟩ | ⟨hm, r, hr⟩
      · rw [he] at hrs; exact absurd hrs (by simp)
      · rw [hr] at hrs
        rcases List.mem_cons.mp hk2 with rfl | hk2
        · exact hm
        · cases hrec : parseKeys tn t keys with
          | error e2 => rw [hrec] at hrs; exact absurd hrs (by simp)
          | ok rest => exact ih.mp ⟨rest, hrec⟩ k2 hk2
    · intro hall
      rcases parseListedKey_classify tn t k with ⟨hm, e, he⟩ | ⟨hm, r, hr⟩
      · exact absurd (hall k (by simp)) (by simp [hm])
      · obtain ⟨rest, hrest⟩ := ih.mpr (fun k2 hk2 => hall k2 (by simp [hk2]))
        exact ⟨r :: rest, by rw [parseKeys, hr, hrest]⟩

/-- C5 (counterexample): the listed key `raw/19700101/0000_7_x.json` has a
trailing segment that does not match the two-part convention, yet Discovery
does not abort: it accepts the key with `area_id = 7` (the second token) and
returns normally. -/
theorem c5_counterexample :
    specTwoPartConvention "0000" "0000_7_x.json" = false ∧
    discover "raw"
      (fun p => if p = "raw/19700101/0000_" then ["raw/19700101/0000_7_x.json"] else [])
      5 = .ok [⟨0, 7, "0000_7.json"⟩] := by
  constructor
  · decide
  · decide

/-- C5 (amended): Discovery aborts on a listed key exactly when, after
stripping `".json"` occurrences and splitting the trailing segment on `_`,
the key has no second part that parses as an integer literal; a key
violating the two-part convention only through extra underscore parts or a
malformed time stem is accepted leniently rather than aborted. -/
theorem c5_malformed_key_abort_characterization
    (base : String) (lk : String → List String) (kst : Nat) :
    (∃ refs, discover base lk kst = .ok refs) ↔
      ∀ t ∈ discoverMinutes kst, ∀ k ∈ lk (bucketPath base t), keyMalformed k = false := by
  rw [discover]
  generalize discoverMinutes kst = ts
  induction ts with
  | nil => simp [discoverBuckets]
  | cons t ts ih =>
    constructor
    · rintro ⟨refs, h⟩ t2 ht2 k hk
      rw [discoverBuckets] at h
      cases hm : parseKeys (timeStr t) t (lk (bucketPath base t)) with
      | error e => rw [hm] at h; exact absurd h (by simp)
      | ok rs =>
        rw [hm] at h
        cases hrec : discoverBuckets base lk ts with
        | error e => rw [hrec] at h; exact absurd h (by simp)
        | ok rest =>
          rcases List.mem_cons.mp ht2 with rfl | ht2
          · exact (parseKeys_ok_iff _ _ _).mp ⟨rs, hm⟩ k hk
          · exact ih.mp ⟨rest, hrec⟩ t2 ht2 k hk
    · intro hall
      obtain ⟨rs, hm⟩ := (parseKeys_ok_iff (timeStr t) t _).mpr
        (fun k hk => hall t (by simp) k hk)
      obtain ⟨rest, hrec⟩ := ih.mpr (fun t2 ht2 k hk => hall t2 (by simp [ht2]) k hk)
      exact ⟨rs ++ rest, by rw [discoverBuckets, hm, hrec]⟩

/-- C4 (counterexample): the claim places the five buckets "ending 5 minutes
before the trigger", i.e. every queried bucket minute would lie at or before
`trigger - 5`.  At reference instant `100` the code queries buckets
`95..99`; bucket `99` is one minute before the reference, not five or more,
so the claimed window placement is off by the window width. -/
theorem c4_counterexample :
    discoverMinutes 100 = [95, 96, 97, 98, 99] ∧
    ¬(∀ t ∈ discoverMinutes 100, t + 5 ≤ 100) := by
  decide

/-- C4 (amended): for a reference instant at least 5 minutes after the
epoch, Discovery enumerates exactly the 5 one-minute buckets immediately
preceding the trigger -- minutes `trigger-5` through `trigger-1`, the window
starting 5 minutes before the trigger and ending at it -- in strictly
chronological order, building for each the listing path of base, date
directory and `HHmm_` stem, and concatenating the per-bucket listings in
that order. -/
theorem c4_discovery_window (base : String) (lk : String → List String) (kst : Nat)
    (h : 5 ≤ kst) :
    discover base lk kst
      = discoverBuckets base lk [kst - 5, kst - 4, kst - 3, kst - 2, kst - 1] ∧
    List.Chain' (· < ·) [kst - 5, kst - 4, kst - 3, kst - 2, kst - 1] := by
  constructor
  · rfl
  · simp only [List.chain'_cons, List.chain'_singleton, and_true]
    omega

theorem c4_witness :
    discover "raw" (fun _ => []) 100
      = discoverBuckets "raw" (fun _ => []) [95, 96, 97, 98, 99] ∧
    List.Chain' (· < ·) [95, 96, 97, 98, 99] :=
  c4_discovery_window "raw" (fun _ => []) 100 (by decide)

theorem toDecAux_head_ne_zero : ∀ fuel n, n < fuel → 1 ≤ n →
    (toDecAux fuel n).head? ≠ some '0' := by
  intro fuel
  induction fuel with
  | zero => intro n h; omega
  | succ fuel ih =>
    intro n h h1
    by_cases h10 : n < 10
    · simp only [toDecAux, if_pos h10, List.head?_cons]
      intro he
      have : decChar n = '0' := by injection he
      interval_cases n <;> simp_all <;> exact absurd this (by decide)
    · simp only [toDecAux, if_neg h10, List.head?_append]
      obtain ⟨hne, -, -⟩ := toDecAux_spec fuel (n / 10) (by
        have := Nat.div_lt_self (by omega : 0 < n) (by omega : 1 < 10); omega)
      have hh : (toDecAux fuel (n / 10)).head?.isSome := by
        cases hl : toDecAux fuel (n / 10) with
        | nil => exact absurd hl hne
        | cons a l => simp
      cases hl : (toDecAux fuel (n / 10)).head? with
      | none => simp [hl] at hh
      | some c =>
        have := ih (n / 10) (by
          have := Nat.div_lt_self (by omega : 0 < n) (by omega : 1 < 10); omega)
          (by omega)
        rw [hl] at this
        simpa [hl] using this

/-- `str(int)` renders no leading zero: a rendering that starts with `'0'`
is the single character `"0"`. -/
theorem intStr_head_zero (n : Int) :
    ((intStr n).data).head? = some '0' → (intStr n).data = ['0'] := by
  intro hh
  by_cases h : n < 0
  · have h2 : intStr n = "-" ++ natStr n.natAbs := by simp [intStr, h]
    rw [h2, String.data_append] at hh
    have h3 : ("-" : String).data = ['-'] := rfl
    rw [h3] at hh
    simp at hh
  · have h2 : intStr n = natStr n.natAbs := by simp [intStr, h]
    rw [h2] at hh ⊢
    have hd : (natStr n.natAbs).data = toDecAux (n.natAbs + 1) n.natAbs := rfl
    rw [hd] at hh ⊢
    by_cases h0 : n.natAbs = 0
    · rw [h0]; rfl
    · exact absurd hh (toDecAux_head_ne_zero _ _ (by omega) (by omega))

/-- C10: the `FileRef`'s `file_name` is rebuilt from the parsed integer
`area_id` as the time stem, an underscore, `str(int(area_id))` and
`".json"`, rather than copied from the listed key; consequently the later
fetch (which keys on `file_name`, source line 233) targets the listed key's
filename exactly when the listed area segment `s` is the canonical rendering
of the parsed integer -- in particular never when `s` carries a leading
zero. -/
theorem c10_filename_rebuilt_from_parsed_area_id
    (tn : String) (t : Nat) (key : String) (s : List Char) (n : Int)
    (hpart : (listedParts key)[1]? = some s)
    (hint : intOfChars s = some n)
    (hname : (splitOnChar '/' key.data).getLastD [] = tn.data ++ '_' :: (s ++ ".json".data)) :
    parseListedKey tn t key = .ok ⟨t, n, tn ++ "_" ++ intStr n ++ ".json"⟩ ∧
    ((tn ++ "_" ++ intStr n ++ ".json").data = (splitOnChar '/' key.data).getLastD []
       ↔ (intStr n).data = s) ∧
    (s.head? = some '0' → s ≠ ['0'] →
      (tn ++ "_" ++ intStr n ++ ".json").data ≠ (splitOnChar '/' key.data).getLastD []) := by
  have hdata : (tn ++ "_" ++ intStr n ++ ".json").data
      = tn.data ++ '_' :: ((intStr n).data ++ ".json".data) := by
    simp [String.data_append]
  have hiff : (tn ++ "_" ++ intStr n ++ ".json").data = (splitOnChar '/' key.data).getLastD []
      ↔ (intStr n).data = s := by
    rw [hdata, hname]
    constructor
    · intro h
      have h1 := List.append_cancel_left h
      have h2 : (intStr n).data ++ ".json".data = s ++ ".json".data := by
        injection h1
      exact List.append_cancel_right h2
    · intro h; rw [h]
  refine ⟨by simp [parseListedKey, hpart, hint], hiff, ?_⟩
  intro hz hs0 heq
  have h1 : (intStr n).data = s := hiff.mp heq
  have h2 : ((intStr n).data).head? = some '0' := by rw [h1]; exact hz
  have := intStr_head_zero n h2
  rw [h1] at this
  exact hs0 this

theorem c10_witness :
    parseListedKey "0900" 3 "raw/20250708/0900_007.json"
      = .ok ⟨3, 7, "0900" ++ "_" ++ intStr 7 ++ ".json"⟩ ∧
    (("0900" ++ "_" ++ intStr 7 ++ ".json").data
        = (splitOnChar '/' ("raw/20250708/0900_007.json").data).getLastD []
       ↔ (intStr 7).data = ['0', '0', '7']) ∧
    ((['0', '0', '7'] : List Char).head? = some '0' → ['0', '0', '7'] ≠ ['0'] →
      ("0900" ++ "_" ++ intStr 7 ++ ".json").data
        ≠ (splitOnChar '/' ("raw/20250708/0900_007.json").data).getLastD []) :=
  c10_filename_rebuilt_from_parsed_area_id "0900" 3 "raw/20250708/0900_007.json"
    ['0', '0', '7'] 7 (by decide) (by decide) (by decide)

theorem processFile_cases (base : String) (store : String → FetchResult) (now : String)
    (st : ExtState) (f : FileRef) :
    (classify base store f = .skipped ∧ processFile base store now st f = .ok st) ∨
    (classify base store f = .fatal ∧ ∃ e, processFile base store now st f = .error e) ∨
    (∃ p, classify base store f = .keyed p ∧
      ((p ∈ st.processedSet ∧ processFile base store now st f = .ok st) ∨
       (p ∉ st.processedSet ∧
         ((∃ e, processFile base store now st f = .error e) ∨
          ∃ row rsbRows, processFile base store now st f = .ok
            { processedSet := p :: st.processedSet
              processedDict := dictRecord st.processedDict (intStr p.1) ⟨p.2, now⟩
              commData := st.commData ++ [row]
              rsbData := st.rsbData ++ rsbRows })))) := by
  cases h1 : store (fileKey base f) with
  | notFound => exact Or.inl ⟨by simp [classify, h1], by simp [processFile, h1]⟩
  | errorOther =>
    exact Or.inr (Or.inl ⟨by simp [classify, h1], PyErr.clientError,
      by simp [processFile, h1]⟩)
  | badJson =>
    exact Or.inr (Or.inl ⟨by simp [classify, h1], PyErr.jsonDecodeError,
      by simp [processFile, h1]⟩)
  | found doc =>
    cases h2 : doc.live_cmrcl_stts with
    | none =>
      exact Or.inr (Or.inl ⟨by simp [classify, h1, h2], PyErr.keyError,
        by simp [processFile, h1, h2]⟩)
    | some live =>
      cases h3 : parseObservedAt live.cmrcl_time with
      | none =>
        exact Or.inl ⟨by simp [classify, h1, h2, h3], by simp [processFile, h1, h2, h3]⟩
      | some t =>
        by_cases hmem : (f.area_id, t) ∈ st.processedSet
        · exact Or.inr (Or.inr ⟨(f.area_id, t), by simp [classify, h1, h2, h3],
            Or.inl ⟨hmem, by simp [processFile, h1, h2, h3, hmem]⟩⟩)
        · refine Or.inr (Or.inr ⟨(f.area_id, t), by simp [classify, h1, h2, h3],
            Or.inr ⟨hmem, ?_⟩⟩)
          cases h4 : buildAreaRow doc live
              (generate_source_id (doc.area_cd.getD "") t) t now with
          | error e => exact Or.inl ⟨e, by simp [processFile, h1, h2, h3, hmem, h4]⟩
          | ok row =>
            cases h5 : buildRsbRows
                (generate_source_id (doc.area_cd.getD "") t) t now live.cmrcl_rsb with
            | error e =>
              exact Or.inl ⟨e, by simp [processFile, h1, h2, h3, hmem, h4, h5]⟩
            | ok rsbRows =>
              exact Or.inr ⟨row, rsbRows, by simp [processFile, h1, h2, h3, hmem, h4, h5]⟩

theorem processFile_of_skipped {base : String} {store : String → FetchResult} {now : String}
    {st : ExtState} {f : FileRef} (h : classify base store f = .skipped) :
    processFile base store now st f = .ok st := by
  rcases processFile_cases base store now st f with ⟨hc, hp⟩ | ⟨hc, hp⟩ | ⟨p, hc, hrest⟩
  · exact hp
  · rw [h] at hc; simp at hc
  · rw [h] at hc; simp at hc

theorem processFile_of_fatal {base : String} {store : String → FetchResult} {now : String}
    (st : ExtState) {f : FileRef} (h : classify base store f = .fatal) :
    ∃ e, processFile base store now st f = .error e := by
  rcases processFile_cases base store now st f with ⟨hc, hp⟩ | ⟨hc, hp⟩ | ⟨p, hc, hrest⟩
  · rw [h] at hc; simp at hc
  · exact hp
  · rw [h] at hc; simp at hc

theorem processFile_of_keyed_mem {base : String} {store : String → FetchResult} {now : String}
    {st : ExtState} {f : FileRef} {p : Int × String} (h : classify base store f = .keyed p)
    (hm : p ∈ st.processedSet) :
    processFile base store now st f = .ok st := by
  rcases processFile_cases base store now st f with ⟨hc, hp⟩ | ⟨hc, hp⟩ | ⟨q, hc, hrest⟩
  · rw [h] at hc; simp at hc
  · rw [h] at hc; simp at hc
  · rw [h] at hc
    have hq : q = p := (FileClass.keyed.inj hc).symm
    subst hq
    rcases hrest with ⟨hin, hp⟩ | ⟨hnm, hrest⟩
    · exact hp
    · exact absurd hm hnm

theorem processFile_mono {base : String} {store : String → FetchResult} {now : String}
    {st st1 : ExtState} {f : FileRef} (h : processFile base store now st f = .ok st1) :
    ∀ x ∈ st.processedSet, x ∈ st1.processedSet := by
  intro x hx
  rcases processFile_cases base store now st f with ⟨hc, hp⟩ | ⟨hc, e, hp⟩ | ⟨p, hc, hrest⟩
  · rw [hp] at h; injection h with h; rw [← h]; exact hx
  · rw [hp] at h; exact absurd h (by simp)
  · rcases hrest with ⟨hin, hp⟩ | ⟨hnm, ⟨e, hp⟩ | ⟨row, rsbRows, hp⟩⟩
    · rw [hp] at h; injection h with h; rw [← h]; exact hx
    · rw [hp] at h; exact absurd h (by simp)
    · rw [hp] at h; injection h with h; rw [← h]; exact List.mem_cons_of_mem _ hx

theorem dedupKey_eq_some {base : String} {store : String → FetchResult} {f : FileRef}
    {p : Int × String} (h : dedupKey base store f = some p) :
    classify base store f = .keyed p := by
  unfold dedupKey at h
  cases hc : classify base store f with
  | skipped => rw [hc] at h; simp at h
  | fatal => rw [hc] at h; simp at h
  | keyed q =>
    rw [hc] at h
    simp at h
    rw [h]

theorem extractLoop_filter_processed (base : String) (store : String → FetchResult)
    (now : String) (p : Int × String) :
    ∀ (files : List FileRef) (st : ExtState), p ∈ st.processedSet →
      extractLoop base store now st files
        = extractLoop base store now st
            (files.filter (fun f => dedupKey base store f != some p)) := by
  intro files
  induction files with
  | nil => intro st hp; rfl
  | cons f fs ih =>
    intro st hp
    by_cases hk : dedupKey base store f = some p
    · have hskip : processFile base store now st f = .ok st :=
        processFile_of_keyed_mem (dedupKey_eq_some hk) hp
      have hfilter : (f :: fs).filter (fun f => dedupKey base store f != some p)
          = fs.filter (fun f => dedupKey base store f != some p) := by
        simp [List.filter_cons, hk]
      rw [hfilter]
      simp only [extractLoop, hskip]
      exact ih st hp
    · have hfilter : (f :: fs).filter (fun f => dedupKey base store f != some p)
          = f :: fs.filter (fun f => dedupKey base store f != some p) := by
        simp [List.filter_cons, bne_iff_ne, hk]
      rw [hfilter]
      cases hpf : processFile base store now st f with
      | error e => simp only [extractLoop, hpf]
      | ok st1 =>
        simp only [extractLoop, hpf]
        exact ih st1 (processFile_mono hpf p hp)

/-- C1: if the pair `p` is in the membership set at the start of extraction,
then (i) any candidate file whose fetched and parsed dedup key is `p` is
skipped with the extraction state exactly unchanged -- nothing appended to
either output collection, nothing recorded in the ledger -- and (ii) the
whole run computes the same result as the run with every such candidate
removed, so no output row of either collection is emitted for `p`. -/
theorem c1_ledger_pairs_excluded (base : String) (store : String → FetchResult)
    (now : String) (st : ExtState) (files : List FileRef) (p : Int × String)
    (hp : p ∈ st.processedSet) :
    (∀ f, dedupKey base store f = some p → processFile base store now st f = .ok st) ∧
    extractLoop base store now st files
      = extractLoop base store now st
          (files.filter (fun f => dedupKey base store f != some p)) :=
  ⟨fun _ hf => processFile_of_keyed_mem (dedupKey_eq_some hf) hp,
   extractLoop_filter_processed base store now p files st hp⟩

/-- C6: a missing source object (`NoSuchKey`) or an unparseable raw
observation timestamp skips the file atomically: the run continues with the
state exactly unchanged -- no membership-set entry, no grouped-dict entry,
no appended row in either collection. -/
theorem c6_skip_classes_atomic (base : String) (store : String → FetchResult)
    (now : String) (st : ExtState) (f : FileRef)
    (h : store (fileKey base f) = FetchResult.notFound ∨
      ∃ doc live, store (fileKey base f) = FetchResult.found doc ∧
        doc.live_cmrcl_stts = some live ∧ parseObservedAt live.cmrcl_time = none) :
    processFile base store now st f = .ok st := by
  apply processFile_of_skipped
  rcases h with h | ⟨doc, live, h1, h2, h3⟩
  · simp [classify, h]
  · simp [classify, h1, h2, h3]

theorem entryObservedAt_entryToJson (e : HistEntry) :
    entryObservedAt (entryToJson e) = .ok e.observed_at := rfl

theorem jsonPairsOfEntries_map (a : Int) (es : List HistEntry) :
    jsonPairsOfEntries a (es.map entryToJson)
      = .ok (es.map (fun e => (a, e.observed_at))) := by
  induction es with
  | nil => rfl
  | cons e es ih => simp [jsonPairsOfEntries, entryObservedAt_entryToJson, ih]

theorem jsonLoadPairs_ledgerToJson (d : Ledger) :
    jsonLoadPairs (ledgerToJson d) = loadPairs d := by
  induction d with
  | nil => rfl
  | cons kv rest ih =>
    obtain ⟨k, es⟩ := kv
    have hih : jsonPairsOfObj
        (rest.map (fun kv => (kv.1, Json.arr (kv.2.map entryToJson)))) = loadPairs rest := ih
    show jsonPairsOfObj ((k, Json.arr (es.map entryToJson)) ::
        rest.map (fun kv => (kv.1, Json.arr (kv.2.map entryToJson)))) = _
    cases hk : strToInt k with
    | none => simp [jsonPairsOfObj, loadPairs, hk]
    | some a =>
      cases hrec : loadPairs rest with
      | error e =>
        rw [hrec] at hih
        simp [jsonPairsOfObj, loadPairs, hk, jsonPairsOfEntries_map, hih, hrec]
      | ok ps =>
        rw [hrec] at hih
        simp [jsonPairsOfObj, loadPairs, hk, jsonPairsOfEntries_map, hih, hrec]

/-- C7: serializing the grouped ledger dict with the save step and then
deserializing the result with the load step recovers exactly the membership
pairs that the load loop derives from the original dict -- in particular
the same membership set of `(area_id, observed_at)` pairs, including the
`int(str(area_id))` key round trip. -/
theorem c7_ledger_roundtrip_membership (d : Ledger) :
    jsonLoadPairs (ledgerToJson d) = loadPairs d :=
  jsonLoadPairs_ledgerToJson d

theorem loadPairs_eq_flatten (d : Ledger) (hk : KeysOK d) :
    loadPairs d = .ok (flattenPairs d) := by
  induction d with
  | nil => rfl
  | cons kv rest ih =>
    obtain ⟨k, es⟩ := kv
    have hk1 : (strToInt k).isSome = true := hk (k, es) (by simp)
    cases hko : strToInt k with
    | none => rw [hko] at hk1; simp at hk1
    | some a =>
      have hrec := ih (fun kv h => hk kv (by simp [h]))
      simp [loadPairs, flattenPairs, hko, hrec]

theorem loadPairs_ok_inv (d : Ledger) (ps : List (Int × String))
    (h : loadPairs d = .ok ps) :
    ps = flattenPairs d ∧ KeysOK d := by
  induction d generalizing ps with
  | nil =>
    simp [loadPairs] at h
    simp [← h, flattenPairs, KeysOK]
  | cons kv rest ih =>
    obtain ⟨k, es⟩ := kv
    cases hko : strToInt k with
    | none => simp [loadPairs, hko] at h
    | some a =>
      cases hrec : loadPairs rest with
      | error e => simp [loadPairs, hko, hrec] at h
      | ok ps2 =>
        simp [loadPairs, hko, hrec] at h
        obtain ⟨hps2, hall⟩ := ih ps2 hrec
        constructor
        · rw [← h, hps2]
          simp [flattenPairs, hko]
        · intro kv hkv
          rcases List.mem_cons.mp hkv with rfl | hkv
          · simp [hko]
          · exact hall kv hkv

theorem flattenPairs_append (d1 d2 : Ledger) :
    flattenPairs (d1 ++ d2) = flattenPairs d1 ++ flattenPairs d2 := by
  induction d1 with
  | nil => rfl
  | cons kv rest ih =>
    obtain ⟨k, es⟩ := kv
    simp [flattenPairs, ih]

theorem map_dictRecord_nokey (k : String) (e : HistEntry) :
    ∀ d : Ledger, d.any (fun kv => kv.1 == k) = false →
      d.map (fun kv => if kv.1 == k then (kv.1, kv.2 ++ [e]) else kv) = d := by
  intro d
  induction d with
  | nil => intro h; rfl
  | cons kv rest ih =>
    intro h
    simp only [List.any_cons, Bool.or_eq_false_iff] at h
    have hne : ¬ kv.1 = k := by
      intro he
      rw [he] at h
      simp at h
    rw [List.map_cons]
    have hhead : (if (kv.1 == k) = true then (kv.1, kv.2 ++ [e]) else kv) = kv := by
      simp [hne]
    rw [hhead, ih h.2]

theorem mem_flattenPairs_cons (k : String) (es : List HistEntry) (rest : Ledger)
    (x : Int × String) :
    x ∈ flattenPairs ((k, es) :: rest) ↔
      (∃ a, strToInt k = some a ∧ ∃ eh ∈ es, x = (a, eh.observed_at)) ∨
        x ∈ flattenPairs rest := by
  simp only [flattenPairs, List.mem_append]
  cases hk : strToInt k with
  | none => simp
  | some a =>
    simp only [List.mem_map, Option.some.injEq]
    constructor
    · rintro (⟨eh, heh, rfl⟩ | hx)
      · exact Or.inl ⟨a, rfl, eh, heh, rfl⟩
      · exact Or.inr hx
    · rintro (⟨a2, ha2, eh, heh, rfl⟩ | hx)
      · cases ha2
        exact Or.inl ⟨eh, heh, rfl⟩
      · exact Or.inr hx

theorem flattenPairs_map_upd (k : String) (a : Int) (e : HistEntry)
    (hk : strToInt k = some a) :
    ∀ d : Ledger, d.any (fun kv => kv.1 == k) = true →
      ∀ x, x ∈ flattenPairs (d.map (fun kv => if kv.1 == k then (kv.1, kv.2 ++ [e]) else kv))
        ↔ x = (a, e.observed_at) ∨ x ∈ flattenPairs d := by
  intro d
  induction d with
  | nil => intro h; simp at h
  | cons kv rest ih =>
    intro hany x
    obtain ⟨k1, es⟩ := kv
    rw [List.map_cons]
    by_cases hk1 : k1 = k
    · subst hk1
      have hf : (if ((k1, es).1 == k1) = true then ((k1, es).1, (k1, es).2 ++ [e]) else (k1, es))
          = (k1, es ++ [e]) := by simp
      rw [hf]
      by_cases hrest : rest.any (fun kv => kv.1 == k1) = true
      · rw [mem_flattenPairs_cons, mem_flattenPairs_cons, ih hrest x]
        simp only [hk, Option.some.injEq, List.mem_append, List.mem_singleton]
        constructor
        · rintro (⟨a2, ha2, eh, (heh | rfl), rfl⟩ | (hx | hx))
          · cases ha2; exact Or.inr (Or.inl ⟨a, rfl, eh, heh, rfl⟩)
          · cases ha2; exact Or.inl rfl
          · exact Or.inl hx
          · exact Or.inr (Or.inr hx)
        · rintro (rfl | (⟨a2, ha2, eh, heh, rfl⟩ | hx))
          · exact Or.inl ⟨a, rfl, e, Or.inr rfl, rfl⟩
          · cases ha2; exact Or.inl ⟨a, rfl, eh, Or.inl heh, rfl⟩
          · exact Or.inr (Or.inr hx)
      · have hid := map_dictRecord_nokey k1 e rest (by
          cases h : rest.any (fun kv => kv.1 == k1)
          · rfl
          · exact absurd h hrest)
        rw [hid, mem_flattenPairs_cons, mem_flattenPairs_cons]
        simp only [hk, Option.some.injEq, List.mem_append, List.mem_singleton]
        constructor
        · rintro (⟨a2, ha2, eh, (heh | rfl), rfl⟩ | hx)
          · cases ha2; exact Or.inr (Or.inl ⟨a, rfl, eh, heh, rfl⟩)
          · cases ha2; exact Or.inl rfl
          · exact Or.inr (Or.inr hx)
        · rintro (rfl | (⟨a2, ha2, eh, heh, rfl⟩ | hx))
          · exact Or.inl ⟨a, rfl, e, Or.inr rfl, rfl⟩
          · cases ha2; exact Or.inl ⟨a, rfl, eh, Or.inl heh, rfl⟩
          · exact Or.inr hx
    · have hf : (if ((k1, es).1 == k) = true then ((k1, es).1, (k1, es).2 ++ [e]) else (k1, es))
          = (k1, es) := by simp [hk1]
      have hrest : rest.any (fun kv => kv.1 == k) = true := by
        simp only [List.any_cons] at hany
        rcases Bool.or_eq_true_iff.mp hany with h1 | h1
        · exact absurd (eq_of_beq h1) hk1
        · exact h1
      rw [hf, mem_flattenPairs_cons, mem_flattenPairs_cons, ih hrest x]
      exact or_left_comm

theorem flattenPairs_dictRecord (d : Ledger) (a : Int) (e : HistEntry) :
    ∀ x, x ∈ flattenPairs (dictRecord d (intStr a) e) ↔
      x = (a, e.observed_at) ∨ x ∈ flattenPairs d := by
  intro x
  have hk : strToInt (intStr a) = some a := strToInt_intStr a
  by_cases hany : d.any (fun kv => kv.1 == intStr a) = true
  · rw [dictRecord, if_pos hany]
    exact flattenPairs_map_upd (intStr a) a e hk d hany x
  · rw [dictRecord, if_neg hany, flattenPairs_append]
    simp only [List.mem_append]
    have hsingle : flattenPairs [(intStr a, [e])] = [(a, e.observed_at)] := by
      simp [flattenPairs, hk]
    rw [hsingle]
    simp only [List.mem_singleton]
    tauto

theorem dictRecord_keysOK (d : Ledger) (hK : KeysOK d) (a : Int) (e : HistEntry) :
    KeysOK (dictRecord d (intStr a) e) := by
  intro kv hkv
  unfold dictRecord at hkv
  by_cases hany : d.any (fun kv => kv.1 == intStr a) = true
  · rw [if_pos hany] at hkv
    obtain ⟨kv0, hkv0, hmap⟩ := List.mem_map.mp hkv
    have h1 : kv.1 = kv0.1 := by
      by_cases h : kv0.1 == intStr a
      · rw [if_pos h] at hmap; rw [← hmap]
      · rw [if_neg h] at hmap; rw [← hmap]
    rw [h1]
    exact hK kv0 hkv0
  · rw [if_neg hany] at hkv
    rcases List.mem_append.mp hkv with h | h
    · exact hK kv h
    · have : kv = (intStr a, [e]) := by simpa using h
      rw [this]
      simp [strToInt_intStr]

theorem processFile_inv {base : String} {store : String → FetchResult} {now : String}
    {st st1 : ExtState} {f : FileRef} (hInv : MemInv st)
    (h : processFile base store now st f = .ok st1) : MemInv st1 := by
  rcases processFile_cases base store now st f with ⟨hc, hp⟩ | ⟨hc, e, hp⟩ | ⟨p, hc, hrest⟩
  · rw [hp] at h; injection h with h; rw [← h]; exact hInv
  · rw [hp] at h; exact absurd h (by simp)
  · rcases hrest with ⟨hin, hp⟩ | ⟨hnm, ⟨e, hp⟩ | ⟨row, rsbRows, hp⟩⟩
    · rw [hp] at h; injection h with h; rw [← h]; exact hInv
    · rw [hp] at h; exact absurd h (by simp)
    · rw [hp] at h; injection h with h
      rw [← h]
      intro x
      simp only [List.mem_cons]
      rw [hInv x]
      have := flattenPairs_dictRecord st.processedDict p.1 ⟨p.2, now⟩ x
      simp only [this]

theorem processFile_keysOK {base : String} {store : String → FetchResult} {now : String}
    {st st1 : ExtState} {f : FileRef} (hK : KeysOK st.processedDict)
    (h : processFile base store now st f = .ok st1) : KeysOK st1.processedDict := by
  rcases processFile_cases base store now st f with ⟨hc, hp⟩ | ⟨hc, e, hp⟩ | ⟨p, hc, hrest⟩
  · rw [hp] at h; injection h with h; rw [← h]; exact hK
  · rw [hp] at h; exact absurd h (by simp)
  · rcases hrest with ⟨hin, hp⟩ | ⟨hnm, ⟨e, hp⟩ | ⟨row, rsbRows, hp⟩⟩
    · rw [hp] at h; injection h with h; rw [← h]; exact hK
    · rw [hp] at h; exact absurd h (by simp)
    · rw [hp] at h; injection h with h; rw [← h]
      exact dictRecord_keysOK st.processedDict hK p.1 ⟨p.2, now⟩

theorem extractLoop_ok_cons {base : String} {store : String → FetchResult} {now : String}
    {st r : ExtState} {f : FileRef} {fs : List FileRef}
    (h : extractLoop base store now st (f :: fs) = .ok r) :
    ∃ st1, processFile base store now st f = .ok st1 ∧
      extractLoop base store now st1 fs = .ok r := by
  cases hpf : processFile base store now st f with
  | error e =>
    simp only [extractLoop, hpf] at h
    exact absurd h (by simp)
  | ok st1 =>
    simp only [extractLoop, hpf] at h
    exact ⟨st1, rfl, h⟩

theorem extractLoop_ok_mono {base : String} {store : String → FetchResult} {now : String} :
    ∀ {fs : List FileRef} {st r : ExtState},
      extractLoop base store now st fs = .ok r →
      ∀ x ∈ st.processedSet, x ∈ r.processedSet := by
  intro fs
  induction fs with
  | nil => intro st r h x hx; injection h with h; rw [← h]; exact hx
  | cons f fs ih =>
    intro st r h x hx
    obtain ⟨st1, hpf, hrest⟩ := extractLoop_ok_cons h
    exact ih hrest x (processFile_mono hpf x hx)

theorem extractLoop_inv {base : String} {store : String → FetchResult} {now : String} :
    ∀ {fs : List FileRef} {st r : ExtState}, MemInv st →
      extractLoop base store now st fs = .ok r → MemInv r := by
  intro fs
  induction fs with
  | nil => intro st r hInv h; injection h with h; rw [← h]; exact hInv
  | cons f fs ih =>
    intro st r hInv h
    obtain ⟨st1, hpf, hrest⟩ := extractLoop_ok_cons h
    exact ih (processFile_inv hInv hpf) hrest

theorem extractLoop_keysOK {base : String} {store : String → FetchResult} {now : String} :
    ∀ {fs : List FileRef} {st r : ExtState}, KeysOK st.processedDict →
      extractLoop base store now st fs = .ok r → KeysOK r.processedDict := by
  intro fs
  induction fs with
  | nil => intro st r hK h; injection h with h; rw [← h]; exact hK
  | cons f fs ih =>
    intro st r hK h
    obtain ⟨st1, hpf, hrest⟩ := extractLoop_ok_cons h
    exact ih (processFile_keysOK hK hpf) hrest

theorem extractLoop_no_fatal {base : String} {store : String → FetchResult} {now : String} :
    ∀ {fs : List FileRef} {st r : ExtState},
      extractLoop base store now st fs = .ok r →
      ∀ f ∈ fs, classify base store f ≠ .fatal := by
  intro fs
  induction fs with
  | nil => intro st r h f hf; cases hf
  | cons f0 fs ih =>
    intro st r h f hf
    obtain ⟨st1, hpf, hrest⟩ := extractLoop_ok_cons h
    rcases List.mem_cons.mp hf with rfl | hf
    · intro hc
      obtain ⟨e, he⟩ := processFile_of_fatal st hc
      rw [he] at hpf
      exact absurd hpf (by simp)
    · exact ih hrest f hf

theorem extractLoop_covers {base : String} {store : String → FetchResult} {now : String} :
    ∀ {fs : List FileRef} {st r : ExtState},
      extractLoop base store now st fs = .ok r →
      ∀ f ∈ fs, ∀ p, classify base store f = .keyed p → p ∈ r.processedSet := by
  intro fs
  induction fs with
  | nil => intro st r h f hf; cases hf
  | cons f0 fs ih =>
    intro st r h f hf p hcp
    obtain ⟨st1, hpf, hrest⟩ := extractLoop_ok_cons h
    rcases List.mem_cons.mp hf with rfl | hf
    · rcases processFile_cases base store now st f with ⟨hc, hp⟩ | ⟨hc, hp⟩ | ⟨q, hc, hq⟩
      · rw [hcp] at hc; simp at hc
      · rw [hcp] at hc; simp at hc
      · rw [hcp] at hc
        rw [(FileClass.keyed.inj hc).symm] at hq
        rcases hq with ⟨hin, hp⟩ | ⟨hnm, ⟨e, hp⟩ | ⟨row, rsbRows, hp⟩⟩
        · rw [hp] at hpf; injection hpf with hpf
          exact extractLoop_ok_mono hrest p (by rw [← hpf]; exact hin)
        · rw [hp] at hpf; exact absurd hpf (by simp)
        · rw [hp] at hpf; injection hpf with hpf
          exact extractLoop_ok_mono hrest p (by rw [← hpf]; exact List.mem_cons_self _ _)
    · exact ih hrest f hf p hcp

theorem extractLoop_stall {base : String} {store : String → FetchResult} {now : String} :
    ∀ (fs : List FileRef) (st : ExtState),
      (∀ f ∈ fs, classify base store f = .skipped ∨
        ∃ p, classify base store f = .keyed p ∧ p ∈ st.processedSet) →
      extractLoop base store now st fs = .ok st := by
  intro fs
  induction fs with
  | nil => intro st h; rfl
  | cons f fs ih =>
    intro st h
    have hskip : processFile base store now st f = .ok st := by
      rcases h f (by simp) with hc | ⟨p, hc, hm⟩
      · exact processFile_of_skipped hc
      · exact processFile_of_keyed_mem hc hm
    simp only [extractLoop, hskip]
    exact ih st (fun f2 hf2 => h f2 (by simp [hf2]))

/-- C2: extraction is idempotent across runs.  Load the persisted ledger
dict `d0` into its membership pairs `ps0`, run extraction over `files`
obtaining `r1`, and persist `r1.processedDict`; then loading that persisted
dict succeeds, and re-running extraction over the identical files starting
from it returns with the state untouched -- in particular both output
collections of the second run are the empty list. -/
theorem c2_extraction_idempotent (base : String) (store : String → FetchResult)
    (now1 now2 : String) (d0 : Ledger) (ps0 : List (Int × String))
    (files : List FileRef) (r1 : ExtState)
    (hload : loadPairs d0 = .ok ps0)
    (hrun1 : extractLoop base store now1 ⟨ps0, d0, [], []⟩ files = .ok r1) :
    loadPairs r1.processedDict = .ok (flattenPairs r1.processedDict) ∧
    extractLoop base store now2
        ⟨flattenPairs r1.processedDict, r1.processedDict, [], []⟩ files
      = .ok ⟨flattenPairs r1.processedDict, r1.processedDict, [], []⟩ := by
  obtain ⟨hps0, hkeys0⟩ := loadPairs_ok_inv d0 ps0 hload
  subst hps0
  have hInv1 : MemInv r1 :=
    extractLoop_inv (fun x => Iff.rfl) hrun1
  have hK1 : KeysOK r1.processedDict := extractLoop_keysOK hkeys0 hrun1
  refine ⟨loadPairs_eq_flatten _ hK1, ?_⟩
  apply extractLoop_stall
  intro f hf
  cases hcf : classify base store f with
  | skipped => exact Or.inl rfl
  | fatal => exact absurd hcf (extractLoop_no_fatal hrun1 f hf)
  | keyed p =>
    refine Or.inr ⟨p, rfl, ?_⟩
    have hp1 : p ∈ r1.processedSet := extractLoop_covers hrun1 f hf p hcf
    exact (hInv1 p).mp hp1

theorem c6_witness :
    processFile "raw" (fun _ => FetchResult.notFound) "n" ⟨[], [], [], []⟩
        ⟨0, 7, "0900_7.json"⟩ = .ok ⟨[], [], [], []⟩ ∧
    processFile "raw" (fun _ => FetchResult.found ⟨none, none,
          some ⟨some "oops", none, .null, .null, .null, .null, .null, .null, .null, .null,
            .null, .null, .null, .null, .null, []⟩⟩) "n" ⟨[], [], [], []⟩
        ⟨0, 7, "0900_7.json"⟩ = .ok ⟨[], [], [], []⟩ :=
  ⟨c6_skip_classes_atomic _ _ _ _ _ (Or.inl rfl),
   c6_skip_classes_atomic _ _ _ _ _ (Or.inr ⟨_, _, rfl, rfl, rfl⟩)⟩

theorem c1_witness :
    (∀ f, dedupKey "raw" (fun _ => FetchResult.found ⟨some "A", none,
          some ⟨some "20250708 0900", none, .null, .null, .null, .null, .null, .null,
            .null, .null, .null, .null, .null, .null, .null, []⟩⟩) f
        = some (7, "2025-07-08 09:00:00") →
      processFile "raw" (fun _ => FetchResult.found ⟨some "A", none,
          some ⟨some "20250708 0900", none, .null, .null, .null, .null, .null, .null,
            .null, .null, .null, .null, .null, .null, .null, []⟩⟩) "n"
        ⟨[(7, "2025-07-08 09:00:00")], [], [], []⟩ f
        = .ok ⟨[(7, "2025-07-08 09:00:00")], [], [], []⟩) ∧
    extractLoop "raw" (fun _ => FetchResult.found ⟨some "A", none,
          some ⟨some "20250708 0900", none, .null, .null, .null, .null, .null, .null,
            .null, .null, .null, .null, .null, .null, .null, []⟩⟩) "n"
        ⟨[(7, "2025-07-08 09:00:00")], [], [], []⟩ [⟨0, 7, "0900_7.json"⟩]
      = extractLoop "raw" (fun _ => FetchResult.found ⟨some "A", none,
          some ⟨some "20250708 0900", none, .null, .null, .null, .null, .null, .null,
            .null, .null, .null, .null, .null, .null, .null, []⟩⟩) "n"
        ⟨[(7, "2025-07-08 09:00:00")], [], [], []⟩
        ([⟨0, 7, "0900_7.json"⟩].filter (fun f =>
          dedupKey "raw" (fun _ => FetchResult.found ⟨some "A", none,
            some ⟨some "20250708 0900", none, .null, .null, .null, .null, .null, .null,
              .null, .null, .null, .null, .null, .null, .null, []⟩⟩) f
            != some (7, "2025-07-08 09:00:00"))) :=
  c1_ledger_pairs_excluded "raw" _ "n" ⟨[(7, "2025-07-08 09:00:00")], [], [], []⟩
    [⟨0, 7, "0900_7.json"⟩] (7, "2025-07-08 09:00:00") (by decide)

theorem c2_witness :
    loadPairs [("7", [⟨"t", "p"⟩])] = .ok (flattenPairs [("7", [⟨"t", "p"⟩])]) ∧
    extractLoop "raw" (fun _ => FetchResult.notFound) "n2"
        ⟨flattenPairs [("7", [⟨"t", "p"⟩])], [("7", [⟨"t", "p"⟩])], [], []⟩
        [⟨0, 7, "0900_7.json"⟩]
      = .ok ⟨flattenPairs [("7", [⟨"t", "p"⟩])], [("7", [⟨"t", "p"⟩])], [], []⟩ :=
  c2_extraction_idempotent "raw" (fun _ => FetchResult.notFound) "n1" "n2"
    [("7", [⟨"t", "p"⟩])] [(7, "t")] [⟨0, 7, "0900_7.json"⟩]
    ⟨[(7, "t")], [("7", [⟨"t", "p"⟩])], [], []⟩ (by decide) (by decide)
